import Mathlib

/-!
Verification of the gopostal near-dupe binding (package postal, file
src/neardupe/neardupe.go) against its natural-language specification.

The Go file under verification is a binding: input validation, a
process-wide mutex, option marshalling, and calls into the libpostal C
library. The wrapper logic (UTF-8 guard, arity and emptiness guards,
option defaults, lock placement) is embedded here directly from the Go
source. The algorithmic core (near-dupe hashing, language detection,
geohash encoding) lives in the C library and is not part of the
repository sources, so those parts are modelled from the specification
text, as marked in the doc comments of the corresponding definitions.

A Go string is an arbitrary byte sequence, so the wrapper-level
functions operate on lists of bytes (GoStr); the modelled C core
decodes them to character lists.
-/

set_option maxRecDepth 4096

/-- A Go string: an arbitrary byte sequence, not necessarily valid UTF-8. -/
abbrev GoStr : Type := List Nat

/-- The character list of a Lean string literal, used to write the
dictionaries and concrete test inputs compactly. -/
def cl (s : String) : List Char := s.data

/-- UTF-8 encoding of a single character (RFC 3629). -/
def utf8EncodeChar (c : Char) : List Nat :=
  let n := c.toNat
  if n < 0x80 then [n]
  else if n < 0x800 then [0xC0 + n / 0x40, 0x80 + n % 0x40]
  else if n < 0x10000 then
    [0xE0 + n / 0x1000, 0x80 + n / 0x40 % 0x40, 0x80 + n % 0x40]
  else
    [0xF0 + n / 0x40000, 0x80 + n / 0x1000 % 0x40,
     0x80 + n / 0x40 % 0x40, 0x80 + n % 0x40]

/-- The Go byte string holding the UTF-8 encoding of a Lean string. -/
def gostr (s : String) : GoStr := (s.data.map utf8EncodeChar).flatten

/-- Embeds the validation performed by utf8.ValidString from the Go
standard library (package unicode/utf8), as called at the top of
NearDupeNameOptions in neardupe.go: a byte sequence is valid UTF-8 iff
it decomposes into well-formed encodings of scalar values up to
U+10FFFF, excluding surrogates and overlong forms. -/
def utf8ValidString : GoStr → Bool
  | [] => true
  | b :: rest =>
    if b < 0x80 then utf8ValidString rest
    else if b < 0xC2 then false
    else if b < 0xE0 then
      match rest with
      | b1 :: r => decide (0x80 ≤ b1 ∧ b1 < 0xC0) && utf8ValidString r
      | [] => false
    else if b < 0xF0 then
      match rest with
      | b1 :: b2 :: r =>
        let lo := if b = 0xE0 then 0xA0 else 0x80
        let hi := if b = 0xED then 0xA0 else 0xC0
        decide (lo ≤ b1 ∧ b1 < hi) && decide (0x80 ≤ b2 ∧ b2 < 0xC0) &&
          utf8ValidString r
      | _ => false
    else if b < 0xF5 then
      match rest with
      | b1 :: b2 :: b3 :: r =>
        let lo := if b = 0xF0 then 0x90 else 0x80
        let hi := if b = 0xF4 then 0x90 else 0xC0
        decide (lo ≤ b1 ∧ b1 < hi) && decide (0x80 ≤ b2 ∧ b2 < 0xC0) &&
          decide (0x80 ≤ b3 ∧ b3 < 0xC0) && utf8ValidString r
      | _ => false
    else false

/-- UTF-8 decoding state machine: pending continuation-byte count,
accumulated code point, remaining bytes. On valid input this inverts
utf8EncodeChar; the guards in the entry points ensure it is only
relied upon for valid input. -/
def utf8DecodeAux : Nat → Nat → List Nat → List Char
  | _, _, [] => []
  | 0, _, b :: rest =>
    if b < 0x80 then Char.ofNat b :: utf8DecodeAux 0 0 rest
    else if b < 0xE0 then utf8DecodeAux 1 (b - 0xC0) rest
    else if b < 0xF0 then utf8DecodeAux 2 (b - 0xE0) rest
    else utf8DecodeAux 3 (b - 0xF0) rest
  | 1, acc, b :: rest => Char.ofNat (acc * 0x40 + b % 0x40) :: utf8DecodeAux 0 0 rest
  | n + 2, acc, b :: rest => utf8DecodeAux (n + 1) (acc * 0x40 + b % 0x40) rest

/-- Decode a Go byte string to a character list. -/
def utf8Decode (bs : GoStr) : List Char := utf8DecodeAux 0 0 bs

/-- Lowercase an ASCII letter, leaving other characters unchanged. -/
def lowerChar (c : Char) : Char :=
  if 65 ≤ c.toNat ∧ c.toNat ≤ 90 then Char.ofNat (c.toNat + 32) else c

/-- Uppercase an ASCII letter, leaving other characters unchanged. -/
def upperChar (c : Char) : Char :=
  if 97 ≤ c.toNat ∧ c.toNat ≤ 122 then Char.ofNat (c.toNat - 32) else c

def lowerChars (cs : List Char) : List Char := cs.map lowerChar

/-- Drop leading and trailing spaces. -/
def trimChars (cs : List Char) : List Char :=
  ((cs.dropWhile (· = ' ')).reverse.dropWhile (· = ' ')).reverse

/-- Split a character list on spaces, discarding empty pieces. -/
def splitSpaces (cs : List Char) : List (List Char) :=
  (cs.splitOn ' ').filter (· ≠ [])

/-- Join word character lists with single spaces. -/
def joinSpace : List (List Char) → List Char
  | [] => []
  | [w] => w
  | w :: ws => w ++ ' ' :: joinSpace ws

/-- Join field character lists with the pipe separator of hash keys. -/
def joinPipe : List (List Char) → List Char
  | [] => []
  | [w] => w
  | w :: ws => w ++ '|' :: joinPipe ws

/-- Keep the first occurrence of each element, preserving order. -/
def dedupAux (seen : List (List Char)) : List (List Char) → List (List Char)
  | [] => []
  | x :: xs =>
    if seen.contains x then dedupAux seen xs
    else x :: dedupAux (x :: seen) xs

def dedupKeepFirst (xs : List (List Char)) : List (List Char) := dedupAux [] xs

/-- NormalizeOptions from neardupe.go: the options allowed for name
normalization for NearDupeNameHashes input, mirroring the C
libpostal_normalize_options_t struct. The languages field is the empty
list when the Go field is nil. -/
structure NormalizeOptions where
  languages : List GoStr
  addressComponents : Nat
  latinAscii : Bool
  transliterate : Bool
  stripAccents : Bool
  decompose : Bool
  lowercase : Bool
  trimString : Bool
  replaceWordHyphens : Bool
  deleteWordHyphens : Bool
  replaceNumericHyphens : Bool
  deleteNumericHyphens : Bool
  splitAlphaFromNumeric : Bool
  deleteFinalPeriods : Bool
  deleteAcronymPeriods : Bool
  dropEnglishPossessives : Bool
  deleteApostrophes : Bool
  expandNumex : Bool
  romanNumerals : Bool
deriving DecidableEq

/-- NearDupeHashOptions from neardupe.go: the options allowed for
near-dupe hashing, mirroring the C libpostal_near_dupe_hash_options_t
struct. Latitude and longitude are modelled as rationals. -/
structure NearDupeHashOptions where
  withName : Bool
  withAddress : Bool
  withUnit : Bool
  withCityOrEquivalent : Bool
  withSmallContainingBoundaries : Bool
  withPostalCode : Bool
  withLatlon : Bool
  latitude : ℚ
  longitude : ℚ
  geohashPrecision : Nat
  nameAndAddressKeys : Bool
  nameOnlyKeys : Bool
  addressOnlyKeys : Bool
deriving DecidableEq

/-- Modelled from the spec: libpostal_get_default_options of the C
library, absent from src. The spec describes a process-wide immutable
default configuration for the Normalizer and VariantExpander with all
the standard destructive cleanups enabled; the address components mask
value is not pinned down by the spec and only its presence matters
here. -/
def cDefaultOptions : NormalizeOptions where
  languages := []
  addressComponents := 0
  latinAscii := true
  transliterate := true
  stripAccents := true
  decompose := true
  lowercase := true
  trimString := true
  replaceWordHyphens := true
  deleteWordHyphens := true
  replaceNumericHyphens := false
  deleteNumericHyphens := false
  splitAlphaFromNumeric := true
  deleteFinalPeriods := true
  deleteAcronymPeriods := true
  dropEnglishPossessives := true
  deleteApostrophes := true
  expandNumex := true
  romanNumerals := true

/-- Modelled from the spec: libpostal_get_near_dupe_hash_default_options
of the C library, absent from src. The values follow the C default
options block quoted verbatim in the comment above the declaration in
neardupe.go (with_name, with_address, with_city_or_equivalent,
with_small_containing_boundaries, with_postal_code and
name_and_address_keys true, the rest false, zero coordinates, geohash
precision 6). -/
def cHashDefaultOptions : NearDupeHashOptions where
  withName := true
  withAddress := true
  withUnit := false
  withCityOrEquivalent := true
  withSmallContainingBoundaries := true
  withPostalCode := true
  withLatlon := false
  latitude := 0
  longitude := 0
  geohashPrecision := 6
  nameAndAddressKeys := true
  nameOnlyKeys := false
  addressOnlyKeys := false

/-- GetDefaultNormalizeOptions from neardupe.go: copies the C default
normalization options field by field, with a nil language list. -/
def GetDefaultNormalizeOptions : NormalizeOptions where
  languages := []
  addressComponents := cDefaultOptions.addressComponents
  latinAscii := cDefaultOptions.latinAscii
  transliterate := cDefaultOptions.transliterate
  stripAccents := cDefaultOptions.stripAccents
  decompose := cDefaultOptions.decompose
  lowercase := cDefaultOptions.lowercase
  trimString := cDefaultOptions.trimString
  replaceWordHyphens := cDefaultOptions.replaceWordHyphens
  deleteWordHyphens := cDefaultOptions.deleteWordHyphens
  replaceNumericHyphens := cDefaultOptions.replaceNumericHyphens
  deleteNumericHyphens := cDefaultOptions.deleteNumericHyphens
  splitAlphaFromNumeric := cDefaultOptions.splitAlphaFromNumeric
  deleteFinalPeriods := cDefaultOptions.deleteFinalPeriods
  deleteAcronymPeriods := cDefaultOptions.deleteAcronymPeriods
  dropEnglishPossessives := cDefaultOptions.dropEnglishPossessives
  deleteApostrophes := cDefaultOptions.deleteApostrophes
  expandNumex := cDefaultOptions.expandNumex
  romanNumerals := cDefaultOptions.romanNumerals

/-- GetDefaultNearDupeHashOptions from neardupe.go: copies the C
default near-dupe hash options field by field. -/
def GetDefaultNearDupeHashOptions : NearDupeHashOptions where
  withName := cHashDefaultOptions.withName
  withAddress := cHashDefaultOptions.withAddress
  withUnit := cHashDefaultOptions.withUnit
  withCityOrEquivalent := cHashDefaultOptions.withCityOrEquivalent
  withSmallContainingBoundaries := cHashDefaultOptions.withSmallContainingBoundaries
  withPostalCode := cHashDefaultOptions.withPostalCode
  withLatlon := cHashDefaultOptions.withLatlon
  latitude := cHashDefaultOptions.latitude
  longitude := cHashDefaultOptions.longitude
  geohashPrecision := cHashDefaultOptions.geohashPrecision
  nameAndAddressKeys := cHashDefaultOptions.nameAndAddressKeys
  nameOnlyKeys := cHashDefaultOptions.nameOnlyKeys
  addressOnlyKeys := cHashDefaultOptions.addressOnlyKeys

/-- The two libpostal default options globals of neardupe.go. -/
def libpostalDefaultOptions : NormalizeOptions := GetDefaultNormalizeOptions

def libpostalDefaultHashOptions : NearDupeHashOptions := GetDefaultNearDupeHashOptions

/-- Vowel test for the phonetic skeleton (lowercase input). -/
def isVowelChar (c : Char) : Bool :=
  c = 'a' || c = 'e' || c = 'i' || c = 'o' || c = 'u'

/-- Modelled from the spec: the PhoneticEncoder sound-alike code for a
single consonant, double-metaphone style, with lookahead for the soft
c. Vowels after the first position, h, w and y are silent; voiced and
unvoiced pairs share a code. -/
def consCode (c : Char) (next : Option Char) : List Char :=
  if isVowelChar c then []
  else if c = 'c' then
    if next.any (fun x => x = 'e' || x = 'i' || x = 'y') then ['S'] else ['K']
  else if c = 'q' || c = 'k' || c = 'g' then ['K']
  else if c = 'v' || c = 'f' then ['F']
  else if c = 'b' || c = 'p' then ['P']
  else if c = 'd' || c = 't' then ['T']
  else if c = 's' || c = 'z' || c = 'x' then ['S']
  else if c = 'h' || c = 'w' || c = 'y' then []
  else if c.isAlpha then [upperChar c]
  else []

def phoneticRest : List Char → List Char
  | [] => []
  | c :: rest => consCode c rest.head? ++ phoneticRest rest

/-- Modelled from the spec: the PhoneticEncoder whole-word code, a
fixed-length consonant-skeleton encoding of the pronunciation of a
lowercase word. A leading vowel is kept as the letter A; the remaining
letters contribute their consonant codes. -/
def phoneticCode (w : List Char) : List Char :=
  match w with
  | [] => []
  | c :: rest =>
    (if isVowelChar c then ['A'] else consCode c rest.head?) ++ phoneticRest rest

/-- Modelled from the spec: the sliding 4-character window of the
PhoneticEncoder. A word of at most four characters is emitted whole;
longer words are cut into every 4-character substring from left to
right. -/
def windows4 (w : List Char) : List (List Char) :=
  if w = [] then []
  else if w.length ≤ 4 then [w]
  else (List.range (w.length - 3)).map fun i => (w.drop i).take 4

/-- Modelled from the spec: the Roman numeral to Arabic numeral pairs
used by the Normalizer when the roman_numerals option is set. -/
def romanNumeralTable : List (List Char × List Char) :=
  [(cl "i", cl "1"), (cl "ii", cl "2"), (cl "iii", cl "3"), (cl "iv", cl "4"),
   (cl "v", cl "5"), (cl "vi", cl "6"), (cl "vii", cl "7"), (cl "viii", cl "8"),
   (cl "ix", cl "9"), (cl "x", cl "10")]

def lookupTable (t : List (List Char × List Char)) (k : List Char) : Option (List Char) :=
  (t.find? fun p => p.1 = k).map (·.2)

/-- Modelled from the spec: the near-dupe hashes of one significant
word of a name: the sliding 4-character windows over the whole-word
phonetic code, then the sliding 4-character windows over the word
itself in left-to-right order, then the Arabic expansion when the word
is a Roman numeral and the roman_numerals option is set. -/
def wordNameHashes (options : NormalizeOptions) (w : List Char) : List (List Char) :=
  let code := phoneticCode w
  let codes := windows4 code
  let grams := windows4 w
  let roman :=
    if options.romanNumerals then
      (lookupTable romanNumeralTable w).toList
    else []
  codes ++ grams ++ roman

/-- Modelled from the spec: libpostal_near_dupe_name_hashes of the C
library, absent from src. Normalizes a name (trim and lowercase as the
options dictate), splits it into words, and emits each word's phonetic
codes followed by its sliding-window substrings. -/
def normalizeNameCore (name : List Char) (options : NormalizeOptions) : List (List Char) :=
  let base := if options.trimString then trimChars name else name
  let base := if options.lowercase then lowerChars base else base
  let words := splitSpaces base
  (words.map (wordNameHashes options)).flatten

/-- Han ideograph (CJK Unified Ideographs and extension A). -/
def isHanChar (c : Char) : Bool :=
  (0x4E00 ≤ c.toNat && c.toNat ≤ 0x9FFF) || (0x3400 ≤ c.toNat && c.toNat ≤ 0x4DBF)

/-- Hiragana or Katakana. -/
def isKanaChar (c : Char) : Bool :=
  0x3040 ≤ c.toNat && c.toNat ≤ 0x30FF

/-- Hangul syllables and Jamo. -/
def isHangulChar (c : Char) : Bool :=
  (0xAC00 ≤ c.toNat && c.toNat ≤ 0xD7AF) || (0x1100 ≤ c.toNat && c.toNat ≤ 0x11FF)

/-- Cyrillic block. -/
def isCyrillicChar (c : Char) : Bool :=
  0x0400 ≤ c.toNat && c.toNat ≤ 0x04FF

/-- Modelled from the spec: characters that mark a Han-script text as
Japanese rather than Chinese: the kana blocks together with a few
Japanese-specific simplified kanji forms. -/
def isJapaneseSpecificChar (c : Char) : Bool :=
  isKanaChar c || c = '渋' || c = '込' || c = '峠' || c = '畑' || c = '働'

/-- Modelled from the spec: the authoritative country name to language
table of the LanguageDetector, consulted first for Latin-script input.
Country names absent from the table give no signal. -/
def countryLanguageTable : List (List Char × List Char) :=
  [(cl "usa", cl "en"), (cl "united states", cl "en"), (cl "uk", cl "en"),
   (cl "france", cl "fr"), (cl "germany", cl "de"), (cl "belgium", cl "fr"),
   (cl "spain", cl "es"), (cl "italy", cl "it"), (cl "russia", cl "ru"),
   (cl "china", cl "zh")]

/-- Modelled from the spec: per-language street-type and place-name
dictionaries used to score Latin-script city and road tokens. -/
def languageTokenDicts : List (List Char × List (List Char)) :=
  [(cl "en", [cl "street", cl "st", cl "avenue", cl "ave", cl "road", cl "rd"]),
   (cl "fr", [cl "rue", cl "avenue", cl "boulevard"]),
   (cl "de", [cl "strasse", cl "platz", cl "weg"])]

/-- Modelled from the spec: the LanguageDetector. Script detection
first: text dominated by a non-Latin block maps deterministically to
its language (Han to zh unless a Japanese-specific kana or kanji is
present, then ja; Hangul to ko; Cyrillic to ru). For Latin-script
input the country value is looked up in the country table; failing
that, city and road tokens are scored against per-language
dictionaries; on tie or no signal the default is en. -/
def detectLanguagesCore (comps : List (List Char × List Char)) : List (List Char) :=
  let chars := (comps.map (·.2)).flatten
  if chars.any isHanChar then
    if chars.any isJapaneseSpecificChar then [cl "ja"] else [cl "zh"]
  else if chars.any isKanaChar then [cl "ja"]
  else if chars.any isHangulChar then [cl "ko"]
  else if chars.any isCyrillicChar then [cl "ru"]
  else
    match (comps.find? fun p => p.1 = cl "country").bind
        (fun p => lookupTable countryLanguageTable (lowerChars p.2)) with
    | some l => [l]
    | none =>
      let toks :=
        ((comps.filter fun p => p.1 = cl "city" || p.1 = cl "road").map
          fun p => splitSpaces (lowerChars p.2)).flatten
      let scores := languageTokenDicts.map fun p =>
        (p.1, (toks.filter fun t => p.2.contains t).length)
      let best := scores.foldl (fun acc s => if s.2 > acc.2 then s else acc) (cl "en", 0)
      if best.2 = 0 then [cl "en"]
      else if (scores.filter fun s => s.2 = best.2).length > 1 then [cl "en"]
      else [best.1]

/-- The base-32 alphabet of the geohash encoding. -/
def geohashBase32 : List Char :=
  ['0', '1', '2', '3', '4', '5', '6', '7', '8', '9', 'b', 'c', 'd', 'e',
   'f', 'g', 'h', 'j', 'k', 'm', 'n', 'p', 'q', 'r', 's', 't', 'u', 'v',
   'w', 'x', 'y', 'z']

/-- Number of longitude bits in a geohash of the given precision:
geohash bits alternate starting with longitude, so longitude gets the
extra bit when the total 5 times precision is odd. -/
def lonBitsOf (p : Nat) : Nat := (5 * p + 1) / 2

/-- Number of latitude bits in a geohash of the given precision. -/
def latBitsOf (p : Nat) : Nat := 5 * p / 2

/-- Modelled from the spec: the grid cell index of a coordinate along
one axis at the given bit depth: the floor of the affine map of the
interval from lo to hi onto the grid rows, computed on the numerator
and denominator of the rational coordinate, clamped into range at the
upper boundary of the valid interval. -/
def coordIdx (x : ℚ) (lo hi : Int) (bits : Nat) : Nat :=
  let raw : Int :=
    Int.fdiv ((x.num - lo * (x.den : Int)) * (2 ^ bits : Int)) ((x.den : Int) * (hi - lo))
  if raw < 0 then 0 else min raw.toNat (2 ^ bits - 1)

/-- The longitude cell index of a geohash at the given precision. -/
def lonIdxOf (lon : ℚ) (p : Nat) : Nat := coordIdx lon (-180) 180 (lonBitsOf p)

/-- The latitude cell index of a geohash at the given precision. -/
def latIdxOf (lat : ℚ) (p : Nat) : Nat := coordIdx lat (-90) 90 (latBitsOf p)

/-- Bit i (from the most significant end) of the interleaved geohash
bit string: even positions take longitude bits, odd positions take
latitude bits. -/
def interleavedBit (li ti p i : Nat) : Nat :=
  if i % 2 = 0 then li / 2 ^ (lonBitsOf p - 1 - i / 2) % 2
  else ti / 2 ^ (latBitsOf p - 1 - i / 2) % 2

/-- Modelled from the spec: the base-32 geohash string of the cell
with the given longitude and latitude indices at the given precision:
the interleaved bit string cut into 5-bit groups, each mapped through
the base-32 alphabet. -/
def encodeIdx (li ti p : Nat) : String :=
  String.mk ((List.range p).map fun ci =>
    geohashBase32.getD
      (16 * interleavedBit li ti p (5 * ci) + 8 * interleavedBit li ti p (5 * ci + 1)
        + 4 * interleavedBit li ti p (5 * ci + 2) + 2 * interleavedBit li ti p (5 * ci + 3)
        + interleavedBit li ti p (5 * ci + 4)) '0')

/-- Modelled from the spec: the GeohashEncoder direct encoding of a
coordinate pair at the given precision. -/
def geohashEncode (lat lon : ℚ) (p : Nat) : String :=
  encodeIdx (lonIdxOf lon p) (latIdxOf lat p) p

/-- The fixed deterministic neighbor order of the geohash grid, as
latitude and longitude index shifts: west, east, south, southwest,
southeast, north, northwest, northeast. -/
def neighborDeltas : List (Int × Int) :=
  [(0, -1), (0, 1), (-1, 0), (-1, -1), (-1, 1), (1, 0), (1, -1), (1, 1)]

/-- Modelled from the spec: the 8 grid neighbors of a geohash cell at
the same precision, in the fixed deterministic order. Longitude wraps
around the antimeridian; a latitude shift past the polar boundary of
the grid has no cell and is omitted. -/
def geohashNeighbors (li ti p : Nat) : List String :=
  neighborDeltas.filterMap fun d =>
    if (ti : Int) + d.1 < 0 ∨ (2 ^ latBitsOf p : Int) ≤ (ti : Int) + d.1 then none
    else some (encodeIdx
      (((li : Int) + d.2) % (2 ^ lonBitsOf p : Int)).toNat ((ti : Int) + d.1).toNat p)

/-- Modelled from the spec: the GeohashEncoder variant set: empty when
the precision is zero or a coordinate is out of the valid range,
otherwise the direct encoding first, then the grid neighbors in the
fixed deterministic order. -/
def geohashVariants (lat lon : ℚ) (p : Nat) : List String :=
  if p = 0 ∨ lat < -90 ∨ 90 < lat ∨ lon < -180 ∨ 180 < lon then []
  else geohashEncode lat lon p :: geohashNeighbors (lonIdxOf lon p) (latIdxOf lat p) p

/-- Modelled from the spec: the VariantExpander per-language
dictionary mapping street-type abbreviations to their expansions; an
ambiguous abbreviation maps to every expansion (st expands to both
saint and street). -/
def abbrevExpansions : List (List Char × List (List Char)) :=
  [(cl "st", [cl "saint", cl "street"]),
   (cl "ave", [cl "avenue"]),
   (cl "rd", [cl "road"]),
   (cl "dr", [cl "drive"]),
   (cl "blvd", [cl "boulevard"])]

/-- The expansion alternatives of one token: its dictionary entries,
or the token itself when the dictionary has none. -/
def tokenAlternatives (t : List Char) : List (List Char) :=
  match (abbrevExpansions.find? fun p => p.1 = t) with
  | some p => p.2
  | none => [t]

/-- Modelled from the spec: generic street-type and connective
descriptor words dropped from the edges of a road name to form its
core variant. -/
def streetDescriptorWords : List (List Char) :=
  [cl "street", cl "st", cl "avenue", cl "ave", cl "road", cl "rd",
   cl "boulevard", cl "blvd", cl "drive", cl "dr", cl "rue", cl "de", cl "la"]

def isStreetDescriptor (t : List Char) : Bool := streetDescriptorWords.contains t

/-- The ordered Cartesian product of the per-position alternative
lists, earlier positions varying slowest. -/
def cartesianProd : List (List (List Char)) → List (List (List Char))
  | [] => [[]]
  | xs :: rest => (xs.map fun x => (cartesianProd rest).map fun c => x :: c).flatten

/-- Modelled from the spec: the VariantExpander for a road field:
lowercase and tokenize, substitute every dictionary alternative for
each token (whole-token substitution, Cartesian across tokens), then
append the core variant formed by dropping leading and trailing
generic descriptors, collapsing duplicates and keeping insertion
order. -/
def expandRoad (road : List Char) : List (List Char) :=
  let toks := splitSpaces (lowerChars (trimChars road))
  let expanded := (cartesianProd (toks.map tokenAlternatives)).map joinSpace
  let coreToks := ((toks.dropWhile isStreetDescriptor).reverse.dropWhile isStreetDescriptor).reverse
  let cores := if coreToks = [] ∨ coreToks = toks then [] else [joinSpace coreToks]
  dedupKeepFirst (expanded ++ cores)

/-- Modelled from the spec: descriptor words dropped from a unit field
to leave its number. -/
def unitDescriptorWords : List (List Char) :=
  [cl "apt", cl "apartment", cl "unit", cl "suite", cl "ste", cl "#"]

/-- Modelled from the spec: the variants of a unit field: the tokens
with unit descriptors dropped, joined back together. -/
def expandUnit (u : List Char) : List (List Char) :=
  let toks := (splitSpaces (lowerChars (trimChars u))).filter
    fun t => ¬ unitDescriptorWords.contains t
  if toks = [] then [] else [joinSpace toks]

/-- Lowercased and trimmed single variant of a simple field such as a
house number, city or postcode. -/
def normSimple (s : List Char) : List Char := lowerChars (trimChars s)

/-- The value of the first component carrying the given label. -/
def fieldValue (comps : List (List Char × List Char)) (l : List Char) : Option (List Char) :=
  (comps.find? fun p => p.1 = l).map (·.2)

/-- Modelled from the spec: the HashKeyComposer for one key shape:
the Cartesian product of the field variant sets in role order, each
combination joined with the pipe separator behind the shape type
code. -/
def composeShape (tc : List Char) (fields : List (List (List Char))) : List String :=
  (cartesianProd fields).map fun combo => String.mk (joinPipe (tc :: combo))

/-- Modelled from the spec: the near-dupe hash pipeline of the C
library, absent from src. Labeled components are turned into per-field
variant sets (road through the VariantExpander, simple fields
normalized, names through the PhoneticEncoder, geohash cells when
latitude and longitude are enabled); the enabled key shapes are then
composed in the fixed order geohash, city, postcode, with the
name-and-address shapes after the address-only shapes. When no
languages are supplied the LanguageDetector picks the working
language set. -/
def nearDupeHashesCore (labels values : List (List Char))
    (options : NearDupeHashOptions) (languages : List (List Char)) : List String :=
  let comps := labels.zip values
  let _langs := if languages = [] then detectLanguagesCore comps else languages
  let roadV := match fieldValue comps (cl "road") with
    | some r => expandRoad r
    | none => []
  let hnV := match fieldValue comps (cl "house_number") with
    | some h => [normSimple h]
    | none => []
  let unitV := match fieldValue comps (cl "unit") with
    | some u => expandUnit u
    | none => []
  let cityV := match fieldValue comps (cl "city") with
    | some c => [normSimple c]
    | none => []
  let pcV := match fieldValue comps (cl "postcode") with
    | some c => [normSimple c]
    | none => []
  let nameV := match fieldValue comps (cl "house") with
    | some n => normalizeNameCore n cDefaultOptions
    | none => []
  let ghV :=
    if options.withLatlon then
      (geohashVariants options.latitude options.longitude options.geohashPrecision).map
        String.data
    else []
  let addrShapes :=
    if options.withAddress && options.addressOnlyKeys then
      (if options.withLatlon then [(cl "agh", [roadV, hnV, ghV])] else []) ++
      (if options.withCityOrEquivalent then
        [if options.withUnit then (cl "auct", [roadV, hnV, unitV, cityV])
         else (cl "act", [roadV, hnV, cityV])]
       else []) ++
      (if options.withPostalCode then
        [if options.withUnit then (cl "aupc", [roadV, hnV, unitV, pcV])
         else (cl "apc", [roadV, hnV, pcV])]
       else [])
    else []
  let nameShapes :=
    if options.withName && options.withAddress && options.nameAndAddressKeys then
      (if options.withCityOrEquivalent then [(cl "nact", [nameV, roadV, hnV, cityV])] else []) ++
      (if options.withPostalCode then [(cl "napc", [nameV, roadV, hnV, pcV])] else [])
    else []
  ((addrShapes ++ nameShapes).map fun s => composeShape s.1 s.2).flatten

/-- Modelled from the spec: libpostal_near_dupe_name_hashes of the C
library, absent from src: empty on malformed text encoding
(InvalidEncoding is non-fatal and yields an empty result), otherwise
the name normalization pipeline on the decoded text. -/
def libpostalNearDupeNameHashes (name : GoStr) (options : NormalizeOptions) : List String :=
  if utf8ValidString name then
    (normalizeNameCore (utf8Decode name) options).map List.asString
  else []

/-- Modelled from the spec: libpostal_near_dupe_hashes and
libpostal_near_dupe_hashes_languages of the C library, absent from
src: empty when any component value has a malformed text encoding,
otherwise the hash pipeline on the decoded components. An empty
language list stands for the Go call without languages. -/
def libpostalNearDupeHashes (labels values : List GoStr)
    (options : NearDupeHashOptions) (languages : List GoStr) : List String :=
  if values.all utf8ValidString then
    nearDupeHashesCore (labels.map utf8Decode) (values.map utf8Decode) options
      (languages.map utf8Decode)
  else []

/-- Modelled from the spec: libpostal_place_languages of the C
library, absent from src: empty when any component value has a
malformed text encoding, otherwise the LanguageDetector on the decoded
components. -/
def libpostalPlaceLanguages (labels values : List GoStr) : List String :=
  if values.all utf8ValidString then
    (detectLanguagesCore ((labels.map utf8Decode).zip (values.map utf8Decode))).map
      List.asString
  else []

/-- NearDupeNameOptions from neardupe.go: returns nil when the name is
not a valid UTF-8 string, otherwise locks, marshals the options and
calls libpostal_near_dupe_name_hashes. -/
def NearDupeNameOptions (name : GoStr) (options : NormalizeOptions) : List String :=
  if ¬ utf8ValidString name then []
  else libpostalNearDupeNameHashes name options

/-- NearDupeNames from neardupe.go: name hashes with the default
normalization options. -/
def NearDupeNames (name : GoStr) : List String :=
  NearDupeNameOptions name libpostalDefaultOptions

/-- NearDupeOptions from neardupe.go: returns nil when the label and
value slices differ in length or are empty, otherwise locks, marshals
the options and calls libpostal_near_dupe_hashes (or the languages
variant when a nonempty language list is given). -/
def NearDupeOptions (labels values : List GoStr) (options : NearDupeHashOptions)
    (languages : List GoStr) : List String :=
  if labels.length ≠ values.length then []
  else if labels.length = 0 then []
  else libpostalNearDupeHashes labels values options languages

/-- NearDupe from neardupe.go: near-dupe hashes with no language list. -/
def NearDupe (labels values : List GoStr) (options : NearDupeHashOptions) : List String :=
  NearDupeOptions labels values options []

/-- NearDupeDefaultOptions from neardupe.go: near-dupe hashes with the
default hash options and no language list. -/
def NearDupeDefaultOptions (labels values : List GoStr) : List String :=
  NearDupeOptions labels values libpostalDefaultHashOptions []

/-- NearDupeLanguages from neardupe.go: near-dupe hashes with an
explicit language list. -/
def NearDupeLanguages (labels values : List GoStr) (options : NearDupeHashOptions)
    (languages : List GoStr) : List String :=
  NearDupeOptions labels values options languages

/-- PlaceLanguages from neardupe.go: returns nil when the label and
value slices differ in length or are empty, otherwise locks and calls
libpostal_place_languages. -/
def PlaceLanguages (labels values : List GoStr) : List String :=
  if labels.length ≠ values.length then []
  else if labels.length = 0 then []
  else libpostalPlaceLanguages labels values

/-- An observable event of one entry-point call: acquiring or
releasing the process-wide mutex mu, a call into the shared libpostal
resources, or returning to the caller. -/
inductive Ev
  | lock
  | unlock
  | ccall (fn : String)
  | ret
deriving DecidableEq

/-- The event trace of NearDupeNameOptions from neardupe.go: the UTF-8
validity check runs before the lock and returns nil without touching
libpostal; otherwise the lock is taken, the default options are
fetched and the hash call is made, and the deferred unlock runs at
return. -/
def NearDupeNameOptionsTrace (name : GoStr) (_options : NormalizeOptions) : List Ev :=
  if ¬ utf8ValidString name then [Ev.ret]
  else [Ev.lock, Ev.ccall "libpostal_get_default_options",
        Ev.ccall "libpostal_near_dupe_name_hashes", Ev.unlock, Ev.ret]

/-- The event trace of NearDupeOptions from neardupe.go: the arity
check runs before the lock and returns nil; the zero-components check
runs after the lock; otherwise the default hash options are fetched
and one of the two hash functions is called depending on the language
list, with the deferred unlock at return. -/
def NearDupeOptionsTrace (labels values : List GoStr) (_options : NearDupeHashOptions)
    (languages : List GoStr) : List Ev :=
  if labels.length ≠ values.length then [Ev.ret]
  else if labels.length = 0 then [Ev.lock, Ev.unlock, Ev.ret]
  else [Ev.lock, Ev.ccall "libpostal_get_near_dupe_hash_default_options",
        Ev.ccall (if languages.length > 0 then "libpostal_near_dupe_hashes_languages"
                  else "libpostal_near_dupe_hashes"),
        Ev.unlock, Ev.ret]

/-- The event trace of PlaceLanguages from neardupe.go: the arity
check runs before the lock and returns nil; the zero-components check
runs after the lock; otherwise libpostal_place_languages is called,
with the deferred unlock at return. -/
def PlaceLanguagesTrace (labels values : List GoStr) : List Ev :=
  if labels.length ≠ values.length then [Ev.ret]
  else if labels.length = 0 then [Ev.lock, Ev.unlock, Ev.ret]
  else [Ev.lock, Ev.ccall "libpostal_place_languages", Ev.unlock, Ev.ret]

/-- The event trace of NearDupeTeardown from neardupe.go: lock, the
two teardown calls, deferred unlock. -/
def NearDupeTeardownTrace : List Ev :=
  [Ev.lock, Ev.ccall "libpostal_teardown",
   Ev.ccall "libpostal_teardown_language_classifier", Ev.unlock, Ev.ret]

/-- Scans a trace with the current lock depth: every call into the
shared libpostal resources must happen at positive depth, and every
unlock must match an earlier lock. -/
def ccallsLocked : Nat → List Ev → Bool
  | _, [] => true
  | d, Ev.lock :: r => ccallsLocked (d + 1) r
  | d, Ev.unlock :: r => decide (0 < d) && ccallsLocked (d - 1) r
  | d, Ev.ccall _ :: r => decide (0 < d) && ccallsLocked d r
  | d, Ev.ret :: r => ccallsLocked d r

/-- A filterMap whose function filters nothing on the given list is a
map. -/
theorem filterMap_if_eq_map {α β : Type} (l : List α) (c : α → Prop) [DecidablePred c]
    (g : α → β) (h : ∀ d ∈ l, ¬ c d) :
    (l.filterMap fun d => if c d then none else some (g d)) = l.map g := by
  induction l with
  | nil => rfl
  | cons a t ih =>
    simp only [List.filterMap_cons, List.map_cons]
    rw [if_neg (h a (List.mem_cons_self a t))]
    rw [ih fun d hd => h d (List.mem_cons_of_mem a hd)]

/-- The labeled components of the C1 scenario, in the order the spec
lists them. -/
def c1Labels : List GoStr :=
  [gostr "house_number", gostr "road", gostr "city", gostr "state", gostr "postcode"]

def c1Values : List GoStr :=
  [gostr "42", gostr "Main St", gostr "Portland", gostr "OR", gostr "97201"]

/-- The C1 scenario options: address, city-or-equivalent and postcode
enabled with address-only keys. -/
def c1Options : NearDupeHashOptions where
  withName := false
  withAddress := true
  withUnit := false
  withCityOrEquivalent := true
  withSmallContainingBoundaries := false
  withPostalCode := true
  withLatlon := false
  latitude := 0
  longitude := 0
  geohashPrecision := 0
  nameAndAddressKeys := false
  nameOnlyKeys := false
  addressOnlyKeys := true

/-- Claim C1: nearDupeHashes on house_number 42, road Main St, city
Portland, state OR, postcode 97201 with address, city-or-equivalent
and postcode enabled and address-only keys includes the six keys
pairing each road variant (main saint, main street, main - the road
token st expands to both saint and street) with the house number and
the city under the act code and with the postcode under the apc
code. -/
theorem nearDupe_c1_scenario_keys :
    "act|main saint|42|portland" ∈ NearDupe c1Labels c1Values c1Options ∧
    "act|main street|42|portland" ∈ NearDupe c1Labels c1Values c1Options ∧
    "act|main|42|portland" ∈ NearDupe c1Labels c1Values c1Options ∧
    "apc|main saint|42|97201" ∈ NearDupe c1Labels c1Values c1Options ∧
    "apc|main street|42|97201" ∈ NearDupe c1Labels c1Values c1Options ∧
    "apc|main|42|97201" ∈ NearDupe c1Labels c1Values c1Options := by
  have h : NearDupe c1Labels c1Values c1Options =
      ["act|main saint|42|portland", "act|main street|42|portland",
       "act|main|42|portland", "apc|main saint|42|97201",
       "apc|main street|42|97201", "apc|main|42|97201"] := rfl
  rw [h]
  exact ⟨List.Mem.head _, List.Mem.tail _ (List.Mem.head _),
    List.Mem.tail _ (List.Mem.tail _ (List.Mem.head _)),
    List.Mem.tail _ (List.Mem.tail _ (List.Mem.tail _ (List.Mem.head _))),
    List.Mem.tail _ (List.Mem.tail _ (List.Mem.tail _ (List.Mem.tail _ (List.Mem.head _)))),
    List.Mem.tail _ (List.Mem.tail _ (List.Mem.tail _ (List.Mem.tail _
      (List.Mem.tail _ (List.Mem.head _)))))⟩

/-- Claim C2, counterexample: at the north polar boundary the claimed
9-entry geohash variant set does not materialize. The coordinate pair
(90, 0) is valid and the precision 1 is at least 1, yet the variant
set has 6 entries: the whole northern neighbor row (north, northwest,
northeast) lies beyond the top latitude row of the grid. -/
theorem geohashVariants_pole_not_nine :
    ((-90 : ℚ) ≤ 90 ∧ (90 : ℚ) ≤ 90 ∧ (-180 : ℚ) ≤ 0 ∧ (0 : ℚ) ≤ 180 ∧ 1 ≤ 1) ∧
    (geohashVariants 90 0 1).length = 6 ∧
    (geohashVariants 90 0 1).length ≠ 9 := by
  decide

/-- Claim C2, amended: for every valid coordinate pair and precision
at least 1, whenever the cell does not lie in the top or bottom
latitude row of the grid, the geohash variant set has exactly 9
entries and its first entry is the direct base-32 encoding of the
coordinates at that precision, the remaining 8 being the grid
neighbors in the fixed deterministic order west, east, south,
southwest, southeast, north, northwest, northeast; at the polar rows
the out-of-range latitude neighbors are omitted and fewer entries
remain. -/
theorem geohashVariants_nine_interior (lat lon : ℚ) (p : Nat)
    (h1 : -90 ≤ lat) (h2 : lat ≤ 90) (h3 : -180 ≤ lon) (h4 : lon ≤ 180)
    (h5 : 1 ≤ p) (h6 : 0 < latIdxOf lat p)
    (h7 : latIdxOf lat p + 1 < 2 ^ latBitsOf p) :
    (geohashVariants lat lon p).length = 9 ∧
    (geohashVariants lat lon p).head? = some (geohashEncode lat lon p) := by
  have hcond : ¬ (p = 0 ∨ lat < -90 ∨ 90 < lat ∨ lon < -180 ∨ 180 < lon) := by
    push_neg
    exact ⟨by omega, h1, h2, h3, h4⟩
  have hti : (1 : Int) ≤ (latIdxOf lat p : Int) := by exact_mod_cast h6
  have htop : ((latIdxOf lat p : Int) + 1) < (2 ^ latBitsOf p : Int) := by
    exact_mod_cast h7
  have hlen : (geohashNeighbors (lonIdxOf lon p) (latIdxOf lat p) p).length = 8 := by
    unfold geohashNeighbors
    rw [filterMap_if_eq_map neighborDeltas
      (fun d => (latIdxOf lat p : Int) + d.1 < 0 ∨
        (2 ^ latBitsOf p : Int) ≤ (latIdxOf lat p : Int) + d.1)
      (fun d => encodeIdx
        (((lonIdxOf lon p : Int) + d.2) % (2 ^ lonBitsOf p : Int)).toNat
        ((latIdxOf lat p : Int) + d.1).toNat p)]
    · simp [neighborDeltas]
    · intro d hd
      have hd1 : d.1 = 0 ∨ d.1 = 1 ∨ d.1 = -1 := by
        simp only [neighborDeltas, List.mem_cons, List.not_mem_nil, or_false] at hd
        rcases hd with h | h | h | h | h | h | h | h <;> subst h <;> simp
      push_neg
      rcases hd1 with h | h | h <;> rw [h] <;> omega
  unfold geohashVariants
  rw [if_neg hcond]
  exact ⟨by rw [List.length_cons, hlen], rfl⟩

/-- Witness for the amended claim C2 at the concrete test coordinates
(40.7484, -73.9857) and precision 6 of the repository test suite. -/
theorem geohashVariants_nine_interior_witness :
    (geohashVariants (mkRat 407484 10000) (mkRat (-739857) 10000) 6).length = 9 ∧
    (geohashVariants (mkRat 407484 10000) (mkRat (-739857) 10000) 6).head? =
      some (geohashEncode (mkRat 407484 10000) (mkRat (-739857) 10000) 6) :=
  geohashVariants_nine_interior (mkRat 407484 10000) (mkRat (-739857) 10000) 6
    (by decide) (by decide) (by decide) (by decide) (by decide) (by decide) (by decide)

/-- Claim C3: whenever the label and value lists differ in length, or
there are zero components, every near-dupe wrapper (NearDupeOptions,
NearDupe, NearDupeDefaultOptions, NearDupeLanguages) and the language
detector entry point (PlaceLanguages) return the empty result,
regardless of the options and language arguments. -/
theorem nearDupe_arity_empty_guards (labels values : List GoStr)
    (options : NearDupeHashOptions) (languages : List GoStr)
    (h : labels.length ≠ values.length ∨ labels.length = 0) :
    NearDupeOptions labels values options languages = [] ∧
    NearDupe labels values options = [] ∧
    NearDupeDefaultOptions labels values = [] ∧
    NearDupeLanguages labels values options languages = [] ∧
    PlaceLanguages labels values = [] := by
  have main : ∀ (opts : NearDupeHashOptions) (langs : List GoStr),
      NearDupeOptions labels values opts langs = [] := by
    intro opts langs
    unfold NearDupeOptions
    rcases h with h | h
    · rw [if_pos h]
    · by_cases hm : labels.length ≠ values.length
      · rw [if_pos hm]
      · rw [if_neg hm, if_pos h]
  have pl : PlaceLanguages labels values = [] := by
    unfold PlaceLanguages
    rcases h with h | h
    · rw [if_pos h]
    · by_cases hm : labels.length ≠ values.length
      · rw [if_pos hm]
      · rw [if_neg hm, if_pos h]
  exact ⟨main options languages, main options [], main libpostalDefaultHashOptions [],
    main options languages, pl⟩

/-- Witness for claim C3: one label against zero values. -/
theorem nearDupe_arity_empty_guards_witness :
    NearDupeOptions [gostr "road"] [] cHashDefaultOptions [] = [] ∧
    NearDupe [gostr "road"] [] cHashDefaultOptions = [] ∧
    NearDupeDefaultOptions [gostr "road"] [] = [] ∧
    NearDupeLanguages [gostr "road"] [] cHashDefaultOptions [] = [] ∧
    PlaceLanguages [gostr "road"] [] = [] :=
  nearDupe_arity_empty_guards [gostr "road"] [] cHashDefaultOptions []
    (Or.inl (by decide))

/-- Claim C4: the near-dupe hash list is a deterministic function of
the labels, values, options and languages alone: two calls on
identical inputs return identical ordered key lists, element for
element. In this embedding the whole pipeline is a pure function of
its arguments (the composer iterates the variant lists in insertion
order, with no hidden iteration state), so equal inputs give equal
outputs definitionally. -/
theorem nearDupe_deterministic (labels1 values1 : List GoStr)
    (options1 : NearDupeHashOptions) (languages1 : List GoStr)
    (labels2 values2 : List GoStr) (options2 : NearDupeHashOptions)
    (languages2 : List GoStr)
    (hl : labels1 = labels2) (hv : values1 = values2)
    (ho : options1 = options2) (hg : languages1 = languages2) :
    NearDupeOptions labels1 values1 options1 languages1 =
      NearDupeOptions labels2 values2 options2 languages2 ∧
    ∀ i : Nat,
      (NearDupeOptions labels1 values1 options1 languages1)[i]? =
        (NearDupeOptions labels2 values2 options2 languages2)[i]? := by
  subst hl
  subst hv
  subst ho
  subst hg
  exact ⟨rfl, fun _ => rfl⟩

/-- Witness for claim C4 at the C1 scenario input. -/
theorem nearDupe_deterministic_witness :
    NearDupeOptions c1Labels c1Values c1Options [] =
      NearDupeOptions c1Labels c1Values c1Options [] ∧
    ∀ i : Nat,
      (NearDupeOptions c1Labels c1Values c1Options [])[i]? =
        (NearDupeOptions c1Labels c1Values c1Options [])[i]? :=
  nearDupe_deterministic c1Labels c1Values c1Options [] c1Labels c1Values c1Options []
    rfl rfl rfl rfl

/-- Claim C5: normalizing the single name Atlantic with the default
options yields exactly the phonetic code windows ATLN, TLNT, LNTK of
the whole-word code followed by the sliding 4-character substrings
atla, tlan, lant, anti, ntic of the normalized word in left-to-right
order. -/
theorem nearDupeName_atlantic :
    NearDupeNameOptions (gostr "Atlantic") GetDefaultNormalizeOptions =
      ["ATLN", "TLNT", "LNTK", "atla", "tlan", "lant", "anti", "ntic"] := rfl

/-- Claim C7: normalizing the single name IV with the default options
yields exactly the phonetic code AF, the lowercase Roman numeral form
iv, and the Arabic numeral expansion 4, in that order. -/
theorem nearDupeName_roman_numeral :
    NearDupeNameOptions (gostr "IV") GetDefaultNormalizeOptions = ["AF", "iv", "4"] := rfl

/-- Claim C6: place components whose road, city and country are
written in Han script detect as exactly zh, and the transliterated
Latin-script fields with country Japan detect as exactly en, the
default in the absence of a script signal (Japan has no entry in the
authoritative country table consulted for Latin input). -/
theorem placeLanguages_script_scenarios :
    PlaceLanguages [gostr "road", gostr "city", gostr "country"]
      [gostr "北京市东城区东长安街", gostr "北京市", gostr "中国"] = ["zh"] ∧
    PlaceLanguages [gostr "suburb", gostr "city", gostr "country"]
      [gostr "Shibuya", gostr "Tokyo", gostr "Japan"] = ["en"] :=
  ⟨rfl, rfl⟩

/-- Claim C8: malformed text encoding yields an empty result rather
than an error: NearDupeNameOptions returns empty for a name that is
not valid UTF-8, and NearDupeOptions returns empty whenever one of the
component values is not valid UTF-8. -/
theorem nearDupe_invalid_encoding_empty (name : GoStr) (nopts : NormalizeOptions)
    (labels values : List GoStr) (hopts : NearDupeHashOptions) (langs : List GoStr)
    (v : GoStr) (hname : utf8ValidString name = false)
    (hv : v ∈ values) (hvv : utf8ValidString v = false) :
    NearDupeNameOptions name nopts = [] ∧
    NearDupeOptions labels values hopts langs = [] := by
  constructor
  · unfold NearDupeNameOptions
    rw [if_pos]
    rw [hname]
    exact Bool.false_ne_true
  · unfold NearDupeOptions
    by_cases h1 : labels.length ≠ values.length
    · rw [if_pos h1]
    · rw [if_neg h1]
      by_cases h2 : labels.length = 0
      · rw [if_pos h2]
      · rw [if_neg h2]
        unfold libpostalNearDupeHashes
        rw [if_neg]
        intro hall
        rw [List.all_eq_true] at hall
        have hc := hall v hv
        rw [hvv] at hc
        exact Bool.false_ne_true hc

/-- Witness for claim C8: the lone byte 255 is invalid UTF-8, as is
the overlong two-byte sequence 192 128. -/
theorem nearDupe_invalid_encoding_empty_witness :
    NearDupeNameOptions [255] GetDefaultNormalizeOptions = [] ∧
    NearDupeOptions [gostr "road"] [[192, 128]] cHashDefaultOptions [] = [] :=
  nearDupe_invalid_encoding_empty [255] GetDefaultNormalizeOptions
    [gostr "road"] [[192, 128]] cHashDefaultOptions [] [192, 128]
    (by decide) (by decide) (by decide)

/-- Claim C9, counterexample: not every external entry point acquires
the process-wide lock for the full duration of its call: a
NearDupeOptions call with mismatched label and value arity returns
from its pre-lock validation without ever acquiring the lock, so it
never holds the lock during its call at all. -/
theorem nearDupeOptionsTrace_no_lock_on_arity_mismatch :
    NearDupeOptionsTrace [gostr "road"] [] cHashDefaultOptions [] = [Ev.ret] ∧
    Ev.lock ∉ NearDupeOptionsTrace [gostr "road"] [] cHashDefaultOptions [] := by
  decide

/-- Claim C9, amended: in every call to an external entry point
(NearDupeNameOptions, NearDupeOptions, PlaceLanguages,
NearDupeTeardown), every access to the shared libpostal resources
happens while the single process-wide lock is held, locks and unlocks
balance, and the lock is held from before the first shared access
until after the last; only pre-lock validation paths that touch no
shared state may return without acquiring the lock. With mutex
semantics this serializes all shared-resource accesses of concurrent
calls. -/
theorem entryPoints_ccalls_locked :
    (∀ (name : GoStr) (nopts : NormalizeOptions),
      ccallsLocked 0 (NearDupeNameOptionsTrace name nopts) = true) ∧
    (∀ (labels values : List GoStr) (opts : NearDupeHashOptions) (langs : List GoStr),
      ccallsLocked 0 (NearDupeOptionsTrace labels values opts langs) = true) ∧
    (∀ (labels values : List GoStr),
      ccallsLocked 0 (PlaceLanguagesTrace labels values) = true) ∧
    ccallsLocked 0 NearDupeTeardownTrace = true := by
  refine ⟨?_, ?_, ?_, by decide⟩
  · intro name nopts
    unfold NearDupeNameOptionsTrace
    split <;> rfl
  · intro labels values opts langs
    unfold NearDupeOptionsTrace
    split
    · rfl
    · split <;> rfl
  · intro labels values
    unfold PlaceLanguagesTrace
    split
    · rfl
    · split <;> rfl

/-- Claim C10: GetDefaultNearDupeHashOptions returns the fixed default
configuration: name, address, city-or-equivalent, small containing
boundaries, postal code and name-and-address keys enabled; unit,
latitude-longitude, name-only and address-only keys disabled; zero
coordinates; geohash precision 6. -/
theorem getDefaultNearDupeHashOptions_values :
    GetDefaultNearDupeHashOptions.withName = true ∧
    GetDefaultNearDupeHashOptions.withAddress = true ∧
    GetDefaultNearDupeHashOptions.withUnit = false ∧
    GetDefaultNearDupeHashOptions.withCityOrEquivalent = true ∧
    GetDefaultNearDupeHashOptions.withSmallContainingBoundaries = true ∧
    GetDefaultNearDupeHashOptions.withPostalCode = true ∧
    GetDefaultNearDupeHashOptions.withLatlon = false ∧
    GetDefaultNearDupeHashOptions.latitude = 0 ∧
    GetDefaultNearDupeHashOptions.longitude = 0 ∧
    GetDefaultNearDupeHashOptions.geohashPrecision = 6 ∧
    GetDefaultNearDupeHashOptions.nameAndAddressKeys = true ∧
    GetDefaultNearDupeHashOptions.nameOnlyKeys = false ∧
    GetDefaultNearDupeHashOptions.addressOnlyKeys = false :=
  ⟨rfl, rfl, rfl, rfl, rfl, rfl, rfl, rfl, rfl, rfl, rfl, rfl, rfl⟩
